import Mathlib

/-!
Verification of the `token-intelligence` ERC20 transfer collector
(`src/collect.js`) against its natural-language specification.

The file shallowly embeds the collector: the startup/CLI validation
(`CHAIN_CONFIG`, `CHAIN_ID`, the whitelist check), the per-page processing of
the ingestion loop in `main` (counting, decoding results, per-log record
construction with JS-truthiness defaults, batch flushing with the
try/catch error policy, cursor update) and the final drain flush.

External collaborators are modelled as data, not code:
the Hypersync stream delivers a finite list of pages (the terminating
`null` response is the end of the list); the log decoder's output arrives
paired with each raw log (`Option DecodedLog`, `none` being the decoder's
`null` for a malformed log); the ClickHouse sink is an oracle
`sinkOk : ℕ → Bool` giving the outcome of the k-th insert call.
JavaScript `BigInt` values are `ℕ` (arbitrary precision in both worlds);
the ISO formatting of a block timestamp is kept abstract as the
constructor `BTime.fromUnix` applied to the raw unix seconds, with
`BTime.fromClock` for the `new Date()` fallback branch.
-/

namespace TokenIntel

/-- One entry of `CHAIN_CONFIG`: `{ name, hypersyncUrl }`. -/
structure ChainInfo where
  name : String
  hypersyncUrl : String
deriving DecidableEq, Repr

/-- The `CHAIN_CONFIG` object literal of `collect.js`, in source order. -/
def CHAIN_CONFIG : List (Int × ChainInfo) :=
  [ (1, ⟨"Ethereum", "http://1.hypersync.xyz"⟩)
  , (10, ⟨"Optimism", "http://10.hypersync.xyz"⟩)
  , (56, ⟨"BSC", "http://56.hypersync.xyz"⟩)
  , (130, ⟨"Unichain", "http://130.hypersync.xyz"⟩)
  , (137, ⟨"Polygon", "http://137.hypersync.xyz"⟩)
  , (480, ⟨"World Chain", "http://480.hypersync.xyz"⟩)
  , (1868, ⟨"Lightlink", "http://1868.hypersync.xyz"⟩)
  , (7777777, ⟨"Zora", "http://7777777.hypersync.xyz"⟩)
  , (8453, ⟨"Base", "http://8453.hypersync.xyz"⟩)
  , (42161, ⟨"Arbitrum", "http://42161.hypersync.xyz"⟩)
  , (43114, ⟨"Avalanche", "http://43114.hypersync.xyz"⟩)
  , (81457, ⟨"Blast", "http://81457.hypersync.xyz"⟩) ]

/-- The key list printed by the failure branch.  JavaScript `Object.keys`
enumerates integer-like keys in ascending numeric order, so `7777777`
comes last even though the literal writes it before `8453`. -/
def chainWhitelist : List Int :=
  [1, 10, 56, 130, 137, 480, 1868, 8453, 42161, 43114, 81457, 7777777]

/-- CHAIN_CONFIG[id] lookup. -/
def lookupChain (id : Int) : Option ChainInfo :=
  (CHAIN_CONFIG.find? (fun e => e.1 = id)).map (·.2)

/-- Line 31: `const CHAIN_ID = parseInt(process.argv[2]) || 130;`.
The argument is the result of `parseInt`: `none` models `NaN`
(absent or non-numeric argv[2]); `some 0` models a parse to `0`/`-0`.
Both are falsy, so `|| 130` applies. -/
def parseChainId (arg : Option Int) : Int :=
  match arg with
  | none => 130
  | some n => if n = 0 then 130 else n

/-- Outcome of the startup section (lines 31-48). -/
inductive Startup where
  | exited (code : ℕ) (printedWhitelist : List Int)
  | proceed (chainId : Int) (info : ChainInfo)
deriving DecidableEq, Repr

/-- Lines 31-48: resolve `CHAIN_ID`, validate against `CHAIN_CONFIG`,
exit code 1 with the whitelist printed when unsupported. -/
def startup (arg : Option Int) : Startup :=
  let cid := parseChainId arg
  match lookupChain cid with
  | none => .exited 1 chainWhitelist
  | some info => .proceed cid info

/-- Line 68: the chain-specific destination table name. -/
def tableName (cid : Int) : String := "erc20_transfers_" ++ toString cid

/-- A raw log as delivered by the stream, restricted to the fields the loop
reads (`address`, `logIndex`, `transactionHash`).  `none` models an
absent/undefined field.  Note the field selection in the query requests no
per-log block number. -/
structure RawLog where
  address : Option String
  logIndex : Option ℕ
  transactionHash : Option String
deriving DecidableEq, Repr

/-- One decoded indexed parameter: the loop reads `.val.toString()`,
modelled as the resulting string. -/
structure IndexedParam where
  val : String
deriving DecidableEq, Repr

/-- One decoded body parameter: `.val` is a `BigInt`, modelled as `ℕ`. -/
structure BodyParam where
  val : ℕ
deriving DecidableEq, Repr

/-- A non-null result of `decoder.decodeLogs` for one log. -/
structure DecodedLog where
  indexed : List IndexedParam
  body : List BodyParam
deriving DecidableEq, Repr

/-- A block record from `res.data.blocks` (fields `number`, `timestamp`). -/
structure Block where
  number : Option ℕ
  timestamp : Option ℕ
deriving DecidableEq, Repr

/-- The block-timestamp string stored in a row: built from the block's unix
seconds (the ISO formatting of line 188-192 is injective in the seconds, so
it is kept abstract), or from `new Date()` when the block has no truthy
timestamp. -/
inductive BTime where
  | fromUnix (t : ℕ)
  | fromClock
deriving DecidableEq, Repr

/-- One object pushed onto `transferBatch` (lines 225-234). -/
structure TransferRow where
  block_number : ℕ
  block_timestamp : BTime
  log_index : ℕ
  transaction_hash : String
  contract_address : String
  from_address : String
  to_address : String
  value : String
deriving DecidableEq, Repr

/-- JavaScript `x || d` for an optional string: `undefined` and the empty
string are falsy. -/
def jsOrStr (x : Option String) (d : String) : String :=
  match x with
  | none => d
  | some s => if s = "" then d else s

/-- JavaScript `x || d` for an optional number: `undefined` and `0` are
falsy. -/
def jsOrNat (x : Option ℕ) (d : ℕ) : ℕ :=
  match x with
  | none => d
  | some n => if n = 0 then d else n

/-- Line 214: `const value = log.body[0]?.val || BigInt(0);`. -/
def decodedValue (d : DecodedLog) : ℕ :=
  jsOrNat ((d.body[0]?).map (·.val)) 0

/-- Lines 210-234: the row built from a decoded log and its original raw
log, with the page-level block context. -/
def buildRow (blockNumber : ℕ) (blockTimestamp : BTime) (raw : RawLog)
    (d : DecodedLog) : TransferRow :=
  { block_number := blockNumber
    block_timestamp := blockTimestamp
    log_index := jsOrNat raw.logIndex 0
    transaction_hash := jsOrStr raw.transactionHash "0x0"
    contract_address := jsOrStr raw.address "0x0"
    from_address := jsOrStr ((d.indexed[0]?).map (·.val)) "0x0"
    to_address := jsOrStr ((d.indexed[1]?).map (·.val)) "0x0"
    value := Nat.repr (decodedValue d) }

/-- `res.data` when present: the raw logs paired with their
`decoder.decodeLogs` results (the decoder returns one entry per log,
`null` for a malformed one), and the page's block records. -/
structure PageData where
  logs : List (RawLog × Option DecodedLog)
  blocks : List Block
deriving DecidableEq, Repr

/-- One non-null `stream.recv()` response. -/
structure Page where
  data : Option PageData
  nextBlock : Option ℕ
deriving DecidableEq, Repr

/-- The mutable state of `main`'s ingestion loop.  `calls` records every
sink insert call actually issued, in order, with its outcome
(`true` = resolved, `false` = rejected/caught). -/
structure LoopState where
  totalEvents : ℕ
  totalTransferValue : ℕ
  transferBatch : List TransferRow
  fromBlock : ℕ
  calls : List (List TransferRow × Bool)
deriving DecidableEq, Repr

/-- Loop state at entry of the streaming loop (`query.fromBlock = 0`,
empty batch, zero counters). -/
def initState : LoopState :=
  { totalEvents := 0, totalTransferValue := 0, transferBatch := []
    fromBlock := 0, calls := [] }

/-- Lines 138-146, `insertTransferBatch`: no sink call happens for an empty
batch (early return, which resolves successfully); otherwise the call is
issued and the sink oracle decides its outcome. -/
def insertTransferBatch (sinkOk : ℕ → Bool) (st : LoopState)
    (rows : List TransferRow) : LoopState × Bool :=
  if rows.length = 0 then (st, true)
  else
    let ok := sinkOk st.calls.length
    ({ st with calls := st.calls ++ [(rows, ok)] }, ok)

/-- Lines 198-254, the per-log body: a `null` decoded log is skipped
(`continue`); otherwise the value is accumulated and the row appended. -/
def processLog (blockNumber : ℕ) (blockTimestamp : BTime) (st : LoopState)
    (entry : RawLog × Option DecodedLog) : LoopState :=
  match entry.2 with
  | none => st
  | some d =>
    { st with
      totalTransferValue := st.totalTransferValue + decodedValue d
      transferBatch :=
        st.transferBatch ++ [buildRow blockNumber blockTimestamp entry.1 d] }

/-- Lines 178-254, the `if (res.data && res.data.logs)` body before the
flush check: count all logs into `totalEvents`, compute the single
page-level block context from `res.data.blocks?.[0] || {}`, then process
every log. -/
def processData (st : LoopState) (d : PageData) : LoopState :=
  let st1 := { st with totalEvents := st.totalEvents + d.logs.length }
  let blockData := d.blocks[0]?
  let blockNumber := jsOrNat (blockData.bind (·.number)) 0
  let blockTimestamp :=
    match blockData.bind (·.timestamp) with
    | some t => if t = 0 then BTime.fromClock else BTime.fromUnix t
    | none => BTime.fromClock
  d.logs.foldl (processLog blockNumber blockTimestamp) st1

/-- Lines 256-267: `if (transferBatch.length >= BATCH_SIZE)` issue the
insert inside try/catch; only the success path clears the batch
(`transferBatch = []`), the catch path just logs and falls through. -/
def flushCheck (sinkOk : ℕ → Bool) (cap : ℕ) (st : LoopState) : LoopState :=
  if cap ≤ st.transferBatch.length then
    let r := insertTransferBatch sinkOk st st.transferBatch
    if r.2 then { r.1 with transferBatch := [] } else r.1
  else st

/-- Lines 270-273: `if (res.nextBlock) query.fromBlock = res.nextBlock;`
(`0` is falsy, so a zero next block leaves the cursor unchanged). -/
def cursorUpdate (st : LoopState) (nb : Option ℕ) : LoopState :=
  match nb with
  | none => st
  | some n => if n = 0 then st else { st with fromBlock := n }

/-- One iteration of the `while (true)` loop for a non-null response. -/
def processPage (sinkOk : ℕ → Bool) (cap : ℕ) (st : LoopState)
    (p : Page) : LoopState :=
  let st1 :=
    match p.data with
    | none => st
    | some d => flushCheck sinkOk cap (processData st d)
  cursorUpdate st1 p.nextBlock

/-- The streaming loop over the finite sequence of non-null responses
(the list end is the `null` sentinel that breaks the loop). -/
def runPages (sinkOk : ℕ → Bool) (cap : ℕ) (pages : List Page)
    (st : LoopState) : LoopState :=
  pages.foldl (processPage sinkOk cap) st

/-- Lines 287-297: the final drain.  The guard is `transferBatch.length > 0`;
the batch variable is not cleared afterwards (the program is about to end). -/
def finalFlush (sinkOk : ℕ → Bool) (st : LoopState) : LoopState :=
  if 0 < st.transferBatch.length then
    (insertTransferBatch sinkOk st st.transferBatch).1
  else st

/-- Line 162: `const BATCH_SIZE = 1000;`. -/
def BATCH_SIZE : ℕ := 1000

/-- The whole ingestion run of `main` after table setup, with capacity as a
parameter. -/
def runMain (sinkOk : ℕ → Bool) (cap : ℕ) (pages : List Page) : LoopState :=
  finalFlush sinkOk (runPages sinkOk cap pages initState)

/-- The ingestion run at the program's capacity `BATCH_SIZE = 1000`. -/
def collectMain (sinkOk : ℕ → Bool) (pages : List Page) : LoopState :=
  runMain sinkOk BATCH_SIZE pages

/-- Result of the whole process: either the startup validation exits
(before any table setup or streaming), or `main` runs. -/
inductive ProgramResult where
  | exited (code : ℕ) (printedWhitelist : List Int)
  | ran (chainId : Int) (table : String) (final : LoopState)
deriving DecidableEq, Repr

/-- The whole program: startup validation first; only on `proceed` does
`main` (table setup and the streaming loop) run. -/
def program (arg : Option Int) (sinkOk : ℕ → Bool)
    (pages : List Page) : ProgramResult :=
  match startup arg with
  | .exited c w => .exited c w
  | .proceed cid _ => .ran cid (tableName cid) (collectMain sinkOk pages)

/-! ### Observation helpers and concrete fixtures -/

/-- A sink that accepts every insert call. -/
def allOk : ℕ → Bool := fun _ => true

/-- A sink that rejects the first insert call and accepts all later ones. -/
def failFirstSink : ℕ → Bool := fun k => k != 0

/-- Total number of rows handed to the sink over all issued insert calls. -/
def deliveredRows (st : LoopState) : ℕ :=
  (st.calls.map (fun c => c.1.length)).sum

/-- The sizes of the issued insert calls, in order. -/
def callSizes (st : LoopState) : List ℕ :=
  st.calls.map (fun c => c.1.length)

/-- Number of logs a page delivers (well-formed and malformed alike). -/
def pageLogCount (p : Page) : ℕ :=
  match p.data with
  | none => 0
  | some d => d.logs.length

/-- Number of well-formed logs of a page (decoder returned non-null). -/
def pageGoodCount (p : Page) : ℕ :=
  match p.data with
  | none => 0
  | some d => (d.logs.filter (fun e => e.2.isSome)).length

/-- Number of malformed logs of a page (decoder returned null). -/
def pageBadCount (p : Page) : ℕ :=
  match p.data with
  | none => 0
  | some d => (d.logs.filter (fun e => e.2.isNone)).length

/-- Decimal-digit parser over a char list, used only to state round-trip
facts about serialized `value` strings (the standard `String` parser does
not reduce inside proofs). -/
def parseDecimalDigits (acc : ℕ) : List Char → Option ℕ
  | [] => some acc
  | c :: cs =>
    if 48 ≤ c.toNat ∧ c.toNat ≤ 57 then
      parseDecimalDigits (acc * 10 + (c.toNat - 48)) cs
    else none

/-- Parse a non-empty decimal string back to the exact natural number. -/
def parseDecimal (s : String) : Option ℕ :=
  match s.data with
  | [] => none
  | l => parseDecimalDigits 0 l

/-- A generic well-formed raw log fixture. -/
def tRaw : RawLog :=
  { address := some "0xc", logIndex := some 7, transactionHash := some "0xt" }

/-- A generic successful decode fixture: transfer of value 5 from `0xa`
to `0xb`. -/
def tDec : DecodedLog :=
  { indexed := [⟨"0xa"⟩, ⟨"0xb"⟩], body := [⟨5⟩] }

/-- A generic block fixture. -/
def tBlock : Block := { number := some 100, timestamp := some 1700000000 }

/-- The row the loop builds from the generic fixtures. -/
def tRow : TransferRow := buildRow 100 (.fromUnix 1700000000) tRaw tDec

/-- A page carrying `n` copies of the well-formed fixture log. -/
def pageN (n : ℕ) (nb : Option ℕ) : Page :=
  { data := some { logs := List.replicate n (tRaw, some tDec), blocks := [tBlock] }
    nextBlock := nb }

/-- A page carrying exactly one well-formed log. -/
def slp : Page := pageN 1 none

/-- A page carrying one well-formed log whose decoded transfer value
is `v`. -/
def valuePage (v : ℕ) : Page :=
  { data := some
      { logs := [(tRaw, some { indexed := [⟨"0xa"⟩, ⟨"0xb"⟩], body := [⟨v⟩] })]
        blocks := [tBlock] }
    nextBlock := none }

/-- A page spanning two blocks (100 and 101) with one log from each: the
first log sits in block 100, the second in block 101 (the query's field
selection carries no per-log block number, so the containing block is
visible only through the page's `blocks` list). -/
def c5Page : Page :=
  { data := some
      { logs :=
          [ ({ address := some "0xc1", logIndex := some 0,
               transactionHash := some "0xt1" }, some tDec)
          , ({ address := some "0xc2", logIndex := some 0,
               transactionHash := some "0xt2" }, some tDec) ]
        blocks := [⟨some 100, some 1600000000⟩, ⟨some 101, some 1600000012⟩] }
    nextBlock := some 102 }

/-- A page with one well-formed log (N = 1) and one malformed log
(M = 1, decoder returned null). -/
def badLogPage : Page :=
  { data := some { logs := [(tRaw, some tDec), (tRaw, none)], blocks := [tBlock] }
    nextBlock := some 10 }

/-! ### Structural lemmas about the loop components -/

theorem processLog_none (bn : ℕ) (bt : BTime) (st : LoopState)
    (e : RawLog × Option DecodedLog) (h : e.2 = none) :
    processLog bn bt st e = st := by
  simp [processLog, h]

theorem processLog_some (bn : ℕ) (bt : BTime) (st : LoopState)
    (e : RawLog × Option DecodedLog) (d : DecodedLog) (h : e.2 = some d) :
    processLog bn bt st e =
      { st with
        totalTransferValue := st.totalTransferValue + decodedValue d
        transferBatch := st.transferBatch ++ [buildRow bn bt e.1 d] } := by
  simp [processLog, h]

theorem processLog_foldl (bn : ℕ) (bt : BTime)
    (logs : List (RawLog × Option DecodedLog)) : ∀ st : LoopState,
    (logs.foldl (processLog bn bt) st).calls = st.calls ∧
    (logs.foldl (processLog bn bt) st).fromBlock = st.fromBlock ∧
    (logs.foldl (processLog bn bt) st).totalEvents = st.totalEvents ∧
    (logs.foldl (processLog bn bt) st).transferBatch.length =
      st.transferBatch.length + (logs.filter (fun e => e.2.isSome)).length := by
  induction logs with
  | nil => intro st; simp
  | cons e t ih =>
    intro st
    rw [List.foldl_cons]
    cases he : e.2 with
    | none =>
      rw [processLog_none bn bt st e he]
      rcases ih st with ⟨h1, h2, h3, h4⟩
      refine ⟨h1, h2, h3, ?_⟩
      simp [List.filter_cons, he, h4]
    | some d =>
      rw [processLog_some bn bt st e d he]
      rcases ih { st with
          totalTransferValue := st.totalTransferValue + decodedValue d
          transferBatch := st.transferBatch ++ [buildRow bn bt e.1 d] }
        with ⟨h1, h2, h3, h4⟩
      refine ⟨h1, h2, h3, ?_⟩
      rw [h4]
      simp [List.filter_cons, he]
      omega

theorem processData_spec (st : LoopState) (d : PageData) :
    (processData st d).calls = st.calls ∧
    (processData st d).fromBlock = st.fromBlock ∧
    (processData st d).totalEvents = st.totalEvents + d.logs.length ∧
    (processData st d).transferBatch.length =
      st.transferBatch.length + (d.logs.filter (fun e => e.2.isSome)).length := by
  unfold processData
  rcases processLog_foldl
      (jsOrNat ((d.blocks[0]?).bind (·.number)) 0)
      (match (d.blocks[0]?).bind (·.timestamp) with
       | some t => if t = 0 then BTime.fromClock else BTime.fromUnix t
       | none => BTime.fromClock)
      d.logs
      { st with totalEvents := st.totalEvents + d.logs.length }
    with ⟨h1, h2, h3, h4⟩
  exact ⟨h1, h2, h3, h4⟩

theorem cursorUpdate_calls (st : LoopState) (nb : Option ℕ) :
    (cursorUpdate st nb).calls = st.calls ∧
    (cursorUpdate st nb).transferBatch = st.transferBatch ∧
    (cursorUpdate st nb).totalEvents = st.totalEvents := by
  unfold cursorUpdate
  cases nb with
  | none => exact ⟨rfl, rfl, rfl⟩
  | some n => by_cases h : n = 0 <;> simp [h]

theorem flushCheck_fromBlock (sinkOk : ℕ → Bool) (cap : ℕ) (st : LoopState) :
    (flushCheck sinkOk cap st).fromBlock = st.fromBlock := by
  unfold flushCheck insertTransferBatch
  by_cases h1 : cap ≤ st.transferBatch.length <;> simp [h1]
  by_cases h2 : st.transferBatch = [] <;> simp [h2]
  by_cases h3 : sinkOk st.calls.length <;> simp [h3]

theorem flushCheck_totalEvents (sinkOk : ℕ → Bool) (cap : ℕ) (st : LoopState) :
    (flushCheck sinkOk cap st).totalEvents = st.totalEvents := by
  unfold flushCheck insertTransferBatch
  by_cases h1 : cap ≤ st.transferBatch.length <;> simp [h1]
  by_cases h2 : st.transferBatch = [] <;> simp [h2]
  by_cases h3 : sinkOk st.calls.length <;> simp [h3]

theorem flushCheck_allOk (cap : ℕ) (st : LoopState) :
    deliveredRows (flushCheck allOk cap st) +
        (flushCheck allOk cap st).transferBatch.length =
      deliveredRows st + st.transferBatch.length := by
  unfold flushCheck insertTransferBatch
  by_cases h1 : cap ≤ st.transferBatch.length <;> simp [h1, allOk]
  by_cases h2 : st.transferBatch = [] <;>
    simp [h2, deliveredRows]

theorem finalFlush_delivered (sinkOk : ℕ → Bool) (st : LoopState) :
    deliveredRows (finalFlush sinkOk st) =
      deliveredRows st + st.transferBatch.length := by
  unfold finalFlush insertTransferBatch
  by_cases h1 : 0 < st.transferBatch.length <;> simp [h1]
  · by_cases h2 : st.transferBatch = [] <;> simp [h2, deliveredRows]
  · exact List.length_eq_zero.mp (by omega)

theorem finalFlush_totalEvents (sinkOk : ℕ → Bool) (st : LoopState) :
    (finalFlush sinkOk st).totalEvents = st.totalEvents := by
  unfold finalFlush insertTransferBatch
  by_cases h1 : 0 < st.transferBatch.length <;> simp [h1]
  by_cases h2 : st.transferBatch = [] <;> simp [h2]

theorem length_filter_some_add_none (l : List (RawLog × Option DecodedLog)) :
    (l.filter (fun e => e.2.isSome)).length +
      (l.filter (fun e => e.2.isNone)).length = l.length := by
  induction l with
  | nil => rfl
  | cons e t ih =>
    cases he : e.2 <;> simp [List.filter_cons, he] <;> omega

theorem deliveredRows_congr {a b : LoopState} (h : a.calls = b.calls) :
    deliveredRows a = deliveredRows b := by
  simp [deliveredRows, h]

theorem processPage_allOk (cap : ℕ) (st : LoopState) (p : Page) :
    deliveredRows (processPage allOk cap st p) +
        (processPage allOk cap st p).transferBatch.length =
      deliveredRows st + st.transferBatch.length + pageGoodCount p ∧
    (processPage allOk cap st p).totalEvents = st.totalEvents + pageLogCount p := by
  unfold processPage
  cases hp : p.data with
  | none =>
    rcases cursorUpdate_calls st p.nextBlock with ⟨h1, h2, h3⟩
    constructor
    · rw [deliveredRows_congr h1, h2]; simp [pageGoodCount, hp]
    · rw [h3]; simp [pageLogCount, hp]
  | some d =>
    rcases cursorUpdate_calls (flushCheck allOk cap (processData st d))
        p.nextBlock with ⟨h1, h2, h3⟩
    rcases processData_spec st d with ⟨g1, g2, g3, g4⟩
    have hf := flushCheck_allOk cap (processData st d)
    have hfe := flushCheck_totalEvents allOk cap (processData st d)
    constructor
    · rw [deliveredRows_congr h1, h2, hf, deliveredRows_congr g1, g4]
      simp [pageGoodCount, hp]
      omega
    · rw [h3, hfe, g3]
      simp [pageLogCount, hp]

theorem runPages_allOk (cap : ℕ) (pages : List Page) : ∀ st : LoopState,
    deliveredRows (runPages allOk cap pages st) +
        (runPages allOk cap pages st).transferBatch.length =
      deliveredRows st + st.transferBatch.length +
        (pages.map pageGoodCount).sum ∧
    (runPages allOk cap pages st).totalEvents =
      st.totalEvents + (pages.map pageLogCount).sum := by
  induction pages with
  | nil => intro st; simp [runPages]
  | cons p t ih =>
    intro st
    have hfold : runPages allOk cap (p :: t) st =
        runPages allOk cap t (processPage allOk cap st p) := by
      simp [runPages]
    rw [hfold]
    rcases ih (processPage allOk cap st p) with ⟨i1, i2⟩
    rcases processPage_allOk cap st p with ⟨j1, j2⟩
    constructor
    · rw [i1]
      simp only [List.map_cons, List.sum_cons]
      omega
    · rw [i2, j2]
      simp only [List.map_cons, List.sum_cons]
      omega

theorem sum_logCount_split (pages : List Page) :
    (pages.map pageLogCount).sum =
      (pages.map pageGoodCount).sum + (pages.map pageBadCount).sum := by
  induction pages with
  | nil => rfl
  | cons p t ih =>
    have hp : pageLogCount p = pageGoodCount p + pageBadCount p := by
      unfold pageLogCount pageGoodCount pageBadCount
      cases p.data with
      | none => rfl
      | some d => exact (length_filter_some_add_none d.logs).symm
    simp only [List.map_cons, List.sum_cons, hp, ih]
    omega

/-- C3 (amended): with a fault-free sink, the rows the sink receives over
the whole run are exactly the well-formed logs of the stream (every
malformed log is skipped without aborting the batch or the loop), while
the run's sole counter, `totalEvents`, counts all logs: it ends at
N + M, not at the claimed skip count M (no skip counter exists). -/
theorem c3_rows_and_counter (cap : ℕ) (pages : List Page) :
    deliveredRows (runMain allOk cap pages) =
      (pages.map pageGoodCount).sum ∧
    (runMain allOk cap pages).totalEvents =
      (pages.map pageGoodCount).sum + (pages.map pageBadCount).sum := by
  have hr := runPages_allOk cap pages initState
  unfold runMain
  constructor
  · rw [finalFlush_delivered]
    have h1 := hr.1
    simp [initState, deliveredRows] at h1 ⊢
    omega
  · rw [finalFlush_totalEvents, hr.2, sum_logCount_split]
    simp [initState]

/-- C3 counterexample: a run on one page with N = 1 well-formed and
M = 1 malformed log delivers exactly 1 row to the sink, but the run's
counter (`totalEvents`, the only one the code keeps, which the claim
reads as the skip counter) ends at 2 = N + M, not at M = 1. -/
theorem c3_skip_counter_counterexample :
    deliveredRows (runMain allOk BATCH_SIZE [badLogPage]) = 1 ∧
    (runMain allOk BATCH_SIZE [badLogPage]).totalEvents = 2 ∧
    (runMain allOk BATCH_SIZE [badLogPage]).totalEvents ≠ 1 := by
  decide

/-! ### Batch sizing invariant for one-log pages (claim C4) -/

theorem processPage_slp (sinkOk : ℕ → Bool) (cap : ℕ) (st : LoopState) :
    processPage sinkOk cap st slp =
      flushCheck sinkOk cap
        { st with
          totalEvents := st.totalEvents + 1
          totalTransferValue := st.totalTransferValue + 5
          transferBatch := st.transferBatch ++ [tRow] } :=
  rfl

theorem flushCheck_full (cap : ℕ) (hcap : 0 < cap) (st : LoopState)
    (h : cap ≤ st.transferBatch.length) :
    callSizes (flushCheck allOk cap st) =
      callSizes st ++ [st.transferBatch.length] ∧
    (flushCheck allOk cap st).transferBatch = [] := by
  have hne : ¬ st.transferBatch = [] := by
    intro he
    rw [he] at h
    simp at h
    omega
  unfold flushCheck insertTransferBatch
  simp [h, hne, allOk, callSizes]

theorem flushCheck_notfull (sinkOk : ℕ → Bool) (cap : ℕ) (st : LoopState)
    (h : ¬ cap ≤ st.transferBatch.length) :
    flushCheck sinkOk cap st = st := by
  unfold flushCheck
  simp [h]

theorem succ_div_mod_full {K C : ℕ} (hC : 0 < C) (h : K % C + 1 = C) :
    (K + 1) / C = K / C + 1 ∧ (K + 1) % C = 0 := by
  have hd := Nat.div_add_mod K C
  have hK1 : K + 1 = C * (K / C + 1) := by
    rw [Nat.mul_add, Nat.mul_one]
    omega
  constructor
  · rw [hK1, Nat.mul_div_cancel_left _ hC]
  · rw [hK1]
    exact Nat.mul_mod_right C _

theorem succ_div_mod_notfull {K C : ℕ} (h : K % C + 1 < C) :
    (K + 1) / C = K / C ∧ (K + 1) % C = K % C + 1 := by
  have hd := Nat.div_add_mod K C
  have hK1 : K + 1 = C * (K / C) + (K % C + 1) := by omega
  constructor
  · rw [hK1, Nat.mul_add_div (by omega), Nat.div_eq_of_lt h, Nat.add_zero]
  · rw [hK1, Nat.mul_add_mod, Nat.mod_eq_of_lt h]

theorem runPages_slp_invariant (C : ℕ) (hC : 0 < C) (K : ℕ) :
    callSizes (runPages allOk C (List.replicate K slp) initState) =
      List.replicate (K / C) C ∧
    (runPages allOk C (List.replicate K slp) initState).transferBatch.length =
      K % C := by
  induction K with
  | zero => simp [runPages, callSizes, initState]
  | succ K ih =>
    rcases ih with ⟨ih1, ih2⟩
    have hfold : runPages allOk C (List.replicate (K + 1) slp) initState =
        processPage allOk C
          (runPages allOk C (List.replicate K slp) initState) slp := by
      rw [List.replicate_succ']
      simp [runPages, List.foldl_append]
    rw [hfold, processPage_slp]
    set st := runPages allOk C (List.replicate K slp) initState with hst
    set stA : LoopState :=
      { st with
        totalEvents := st.totalEvents + 1
        totalTransferValue := st.totalTransferValue + 5
        transferBatch := st.transferBatch ++ [tRow] } with hstA
    have hcallsA : callSizes stA = callSizes st := rfl
    have hlenA : stA.transferBatch.length = K % C + 1 := by
      simp [hstA, ih2]
    have hmod : K % C < C := Nat.mod_lt _ hC
    by_cases hfull : C ≤ K % C + 1
    · have hCeq : K % C + 1 = C := by omega
      obtain ⟨hdiv, hmod0⟩ := succ_div_mod_full hC hCeq
      obtain ⟨f1, f2⟩ := flushCheck_full C hC stA (by omega)
      constructor
      · rw [f1, hcallsA, ih1, hlenA, hCeq, hdiv, List.replicate_succ']
      · rw [f2, hmod0]
        rfl
    · have hlt : K % C + 1 < C := by omega
      obtain ⟨hdiv, hmods⟩ := succ_div_mod_notfull hlt
      rw [flushCheck_notfull allOk C stA (by omega)]
      exact ⟨by rw [hcallsA, ih1, hdiv], by rw [hlenA, hmods]⟩

/-- C4 (amended, the regime the spec describes): when every page carries
exactly one well-formed log and every insert succeeds, a capacity-C run
over K logs issues exactly ⌈K/C⌉ insert calls — all of size C except a
final drain call of size K mod C when C does not divide K — and the
buffer left at stream end holds K mod C < C records.  (The general claim
is false: the flush check runs only at page boundaries, so a page
carrying several logs can push the buffer, and hence a single insert
call, beyond C; see the counterexample.) -/
theorem c4_batch_sizing_one_log_pages (C K : ℕ) (hC : 0 < C) :
    callSizes (runMain allOk C (List.replicate K slp)) =
      List.replicate (K / C) C ++ (if K % C = 0 then [] else [K % C]) ∧
    (runMain allOk C (List.replicate K slp)).calls.length =
      K / C + (if K % C = 0 then 0 else 1) ∧
    (runPages allOk C (List.replicate K slp) initState).transferBatch.length
      < C := by
  obtain ⟨h1, h2⟩ := runPages_slp_invariant C hC K
  have hmod : K % C < C := Nat.mod_lt _ hC
  have hcs : callSizes (runMain allOk C (List.replicate K slp)) =
      List.replicate (K / C) C ++ (if K % C = 0 then [] else [K % C]) := by
    unfold runMain finalFlush insertTransferBatch
    set st := runPages allOk C (List.replicate K slp) initState with hst
    by_cases hz : K % C = 0
    · have hb : ¬ 0 < st.transferBatch.length := by omega
      simp only [hb, if_neg, ite_false, hz, ite_true]
      rw [h1]
      simp
    · have hb : 0 < st.transferBatch.length := by omega
      have hne : ¬ st.transferBatch = [] := by
        intro he
        rw [he] at hb
        simp at hb
      simp only [hb, ite_true, hne, ite_false, List.length_eq_zero, hz]
      have hmap : callSizes { st with
          calls := st.calls ++ [(st.transferBatch, allOk st.calls.length)] } =
          callSizes st ++ [st.transferBatch.length] := by
        simp [callSizes]
      rw [hmap, h1, h2]
  refine ⟨hcs, ?_, by omega⟩
  have hlen := congrArg List.length hcs
  rw [callSizes, List.length_map] at hlen
  rw [hlen]
  by_cases hz : K % C = 0 <;> simp [hz]

/-- C4 counterexample: with capacity C = 2, a stream made of one page
carrying K = 3 well-formed logs yields a single insert call of size 3:
not the claimed ⌈3/2⌉ = 2 calls, not every non-final call of size C, and
the buffer held 3 > C records before the flush (the flush check only
runs at page boundaries). -/
theorem c4_counterexample :
    callSizes (runMain allOk 2 [pageN 3 none]) = [3] ∧
    (runMain allOk 2 [pageN 3 none]).calls.length = 1 ∧
    (runMain allOk 2 [pageN 3 none]).calls.length ≠ 2 := by
  decide

/-- Witness for C4 at C = 2, K = 3. -/
theorem c4_batch_sizing_witness :
    callSizes (runMain allOk 2 (List.replicate 3 slp)) =
      List.replicate (3 / 2) 2 ++ (if 3 % 2 = 0 then [] else [3 % 2]) ∧
    (runMain allOk 2 (List.replicate 3 slp)).calls.length =
      3 / 2 + (if 3 % 2 = 0 then 0 else 1) ∧
    (runPages allOk 2 (List.replicate 3 slp) initState).transferBatch.length
      < 2 :=
  c4_batch_sizing_one_log_pages 2 3 (by decide)

/-- C6: when the stream-exhaustion sentinel arrives with M buffered
records, 0 < M < capacity, exactly one final flush carrying those M
records is handed to the sink before the run ends; with zero buffered
records no final flush occurs at all. -/
theorem c6_graceful_drain (sinkOk : ℕ → Bool) (cap : ℕ) (pages : List Page)
    (M : ℕ)
    (hM : (runPages sinkOk cap pages initState).transferBatch.length = M)
    (_hMC : M < cap) :
    (0 < M →
      (runMain sinkOk cap pages).calls =
        (runPages sinkOk cap pages initState).calls ++
          [((runPages sinkOk cap pages initState).transferBatch,
            sinkOk (runPages sinkOk cap pages initState).calls.length)] ∧
      (runPages sinkOk cap pages initState).transferBatch.length = M) ∧
    (M = 0 → runMain sinkOk cap pages = runPages sinkOk cap pages initState) := by
  unfold runMain finalFlush insertTransferBatch
  set st := runPages sinkOk cap pages initState with hst
  constructor
  · intro h0
    have hb : 0 < st.transferBatch.length := by omega
    have hne : ¬ st.transferBatch = [] := by
      intro he
      rw [he] at hb
      simp at hb
    simp only [hb, ite_true, hne, ite_false, List.length_eq_zero]
    exact ⟨by trivial, hM⟩
  · intro h0
    have hb : ¬ 0 < st.transferBatch.length := by omega
    simp [hb]

/-- Witness for C6: a run ending with one buffered record issues exactly
the single drain call; the empty run issues none. -/
theorem c6_graceful_drain_witness :
    (runMain allOk BATCH_SIZE [pageN 1 none]).calls = [([tRow], true)] ∧
    runMain allOk BATCH_SIZE [] = runPages allOk BATCH_SIZE [] initState := by
  constructor
  · rw [((c6_graceful_drain allOk BATCH_SIZE [pageN 1 none] 1 (by decide)
      (by decide)).1 (by decide)).1]
    decide
  · exact (c6_graceful_drain allOk BATCH_SIZE [] 0 (by decide) (by decide)).2 rfl

/-- C1 (amended): when the insert call of a mid-stream flush fails, the
failure is recorded and the loop carries on, but the batch is NOT
discarded: the catch path skips the `transferBatch = []` reset, so the
same records stay buffered and are handed to the sink again at the next
flush check that succeeds (only then is the buffer cleared). -/
theorem c1_failed_flush_retains_batch (sinkOk sinkOk' : ℕ → Bool) (cap : ℕ)
    (st : LoopState) (hcap : 0 < cap) (hfull : cap ≤ st.transferBatch.length)
    (hfail : sinkOk st.calls.length = false) :
    (flushCheck sinkOk cap st).transferBatch = st.transferBatch ∧
    (flushCheck sinkOk cap st).calls =
      st.calls ++ [(st.transferBatch, false)] ∧
    (sinkOk' (flushCheck sinkOk cap st).calls.length = true →
      (flushCheck sinkOk' cap (flushCheck sinkOk cap st)).calls =
        st.calls ++ [(st.transferBatch, false), (st.transferBatch, true)] ∧
      (flushCheck sinkOk' cap (flushCheck sinkOk cap st)).transferBatch
        = []) := by
  have hne : ¬ st.transferBatch = [] := by
    intro he
    rw [he] at hfull
    simp at hfull
    omega
  have hstep : flushCheck sinkOk cap st =
      { st with calls := st.calls ++ [(st.transferBatch, false)] } := by
    unfold flushCheck insertTransferBatch
    simp [hfull, hne, hfail]
  refine ⟨by rw [hstep], by rw [hstep], ?_⟩
  intro hok
  rw [hstep] at hok ⊢
  unfold flushCheck insertTransferBatch
  simp only [List.length_append, List.length_cons, List.length_nil] at hok
  simp [hfull, hne, hok]

/-- Witness for C1's amended behaviour at a concrete two-row batch with
capacity 2: the failed flush keeps the rows, the retry hands the very
same rows to the sink and then clears the buffer. -/
theorem c1_failed_flush_retains_batch_witness :
    (flushCheck (fun _ => false) 2
      { totalEvents := 2, totalTransferValue := 10,
        transferBatch := [tRow, tRow], fromBlock := 0,
        calls := [] }).transferBatch = [tRow, tRow] ∧
    (flushCheck allOk 2 (flushCheck (fun _ => false) 2
      { totalEvents := 2, totalTransferValue := 10,
        transferBatch := [tRow, tRow], fromBlock := 0,
        calls := [] })).calls =
      [([tRow, tRow], false), ([tRow, tRow], true)] := by
  have h := c1_failed_flush_retains_batch (fun _ => false) allOk 2
    { totalEvents := 2, totalTransferValue := 10,
      transferBatch := [tRow, tRow], fromBlock := 0, calls := [] }
    (by decide) (by decide) rfl
  refine ⟨h.1, ?_⟩
  rw [(h.2.2 rfl).1]
  decide

/-- C1 counterexample: a capacity-2 run in which the first mid-stream
flush fails shows the batch is not discarded: the second insert call
carries exactly the same two records (and succeeds), so the records ARE
handed to the sink again, contradicting the claim. -/
theorem c1_counterexample :
    (runMain failFirstSink 2 [pageN 2 (some 10), pageN 0 (some 11)]).calls =
      [([tRow, tRow], false), ([tRow, tRow], true)] := by
  decide

/-- C2 (amended): after a page, the cursor equals whatever non-zero
`nextBlock` the page reported — even when that is lower than the cursor
before the page; an absent or zero `nextBlock` leaves the cursor
unchanged.  No monotonicity check exists, no fatal error is raised and
the loop keeps requesting pages after a regression. -/
theorem c2_cursor_follows_next_block (sinkOk : ℕ → Bool) (cap : ℕ)
    (st : LoopState) (p : Page) :
    (∀ n : ℕ, p.nextBlock = some n → n ≠ 0 →
      (processPage sinkOk cap st p).fromBlock = n) ∧
    (p.nextBlock = none →
      (processPage sinkOk cap st p).fromBlock = st.fromBlock) ∧
    (p.nextBlock = some 0 →
      (processPage sinkOk cap st p).fromBlock = st.fromBlock) := by
  unfold processPage
  have h1 : (match p.data with
      | none => st
      | some d => flushCheck sinkOk cap (processData st d)).fromBlock
        = st.fromBlock := by
    cases hp : p.data with
    | none => rfl
    | some d => rw [flushCheck_fromBlock, (processData_spec st d).2.1]
  refine ⟨?_, ?_, ?_⟩
  · intro n hn hnz
    rw [hn]
    unfold cursorUpdate
    simp [hnz]
  · intro hn
    rw [hn]
    exact h1
  · intro hn
    rw [hn]
    unfold cursorUpdate
    simp [h1]

/-- Witness for C2: with the cursor at 10, a page reporting nextBlock 5
sets the cursor to 5 — the regression is accepted silently. -/
theorem c2_cursor_follows_next_block_witness :
    (processPage allOk BATCH_SIZE
      { totalEvents := 0, totalTransferValue := 0, transferBatch := []
        fromBlock := 10, calls := [] } (pageN 0 (some 5))).fromBlock = 5 :=
  (c2_cursor_follows_next_block allOk BATCH_SIZE
    { totalEvents := 0, totalTransferValue := 0, transferBatch := []
      fromBlock := 10, calls := [] } (pageN 0 (some 5))).1 5 rfl (by decide)

/-- C2 counterexample: page 1 reports nextBlock 10, page 2 reports
nextBlock 5: the cursor value after page 2 (5) is strictly BELOW its
value before page 2 (10), and the loop still consumes a third page (its
log is counted) — no fatal error, no stop. -/
theorem c2_counterexample :
    (runPages allOk BATCH_SIZE [pageN 0 (some 10)] initState).fromBlock
      = 10 ∧
    (runPages allOk BATCH_SIZE
      [pageN 0 (some 10), pageN 0 (some 5)] initState).fromBlock = 5 ∧
    (runPages allOk BATCH_SIZE
        [pageN 0 (some 10), pageN 0 (some 5)] initState).fromBlock <
      (runPages allOk BATCH_SIZE [pageN 0 (some 10)] initState).fromBlock ∧
    (runPages allOk BATCH_SIZE
      [pageN 0 (some 10), pageN 0 (some 5), pageN 1 (some 20)]
      initState).totalEvents = 1 := by
  decide

/-- C5: evaluation at the failing input.  The page carries two blocks
(numbers 100 and 101) and two logs, one from each block; the code stamps
BOTH rows with block 100's number and timestamp (`res.data.blocks?.[0]`),
so the second row does not carry its own containing block's context. -/
theorem c5_per_page_block_attribution :
    ((runMain allOk BATCH_SIZE [c5Page]).calls.map
        (fun c => c.1.map (fun r => (r.block_number, r.block_timestamp)))) =
      [[(100, BTime.fromUnix 1600000000), (100, BTime.fromUnix 1600000000)]] ∧
    (c5Page.data.map (fun d => d.blocks.map (·.number))) =
      some [some 100, some 101] := by
  decide

theorem jsOrNat_some_zero (v : ℕ) : jsOrNat (some v) 0 = v := by
  unfold jsOrNat
  by_cases h : v = 0 <;> simp [h]

/-- C7: a decoded transfer value `v` (up to 256 bits) is carried as an
exact natural number from decode through accumulation (it enters
`totalTransferValue` unchanged) and is serialized into the insert row as
its exact decimal string `Nat.repr v` — no modular reduction, no float,
no fixed-width arithmetic anywhere on the path. -/
theorem c7_value_precision (v : ℕ) (_hv : v < 2 ^ 256) :
    ((runMain allOk BATCH_SIZE [valuePage v]).calls.map
        (fun c => c.1.map (fun r => r.value))) = [[Nat.repr v]] ∧
    (runMain allOk BATCH_SIZE [valuePage v]).totalTransferValue = v := by
  have hval : decodedValue
      { indexed := [⟨"0xa"⟩, ⟨"0xb"⟩], body := [⟨v⟩] } = v := by
    unfold decodedValue
    simpa using jsOrNat_some_zero v
  have h1 : runMain allOk BATCH_SIZE [valuePage v] =
      { totalEvents := 1
        totalTransferValue :=
          0 + decodedValue { indexed := [⟨"0xa"⟩, ⟨"0xb"⟩], body := [⟨v⟩] }
        transferBatch := [buildRow 100 (BTime.fromUnix 1700000000) tRaw
          { indexed := [⟨"0xa"⟩, ⟨"0xb"⟩], body := [⟨v⟩] }]
        fromBlock := 0
        calls := [([buildRow 100 (BTime.fromUnix 1700000000) tRaw
          { indexed := [⟨"0xa"⟩, ⟨"0xb"⟩], body := [⟨v⟩] }], true)] } := rfl
  rw [h1]
  constructor
  · simp [buildRow, hval]
  · simp [hval]

set_option maxRecDepth 10000 in
/-- Witness for C7 at v = 2^255 + 12345, with the decimal round-trip
back to the exact integer (no precision loss). -/
theorem c7_value_precision_witness :
    ((runMain allOk BATCH_SIZE [valuePage (2 ^ 255 + 12345)]).calls.map
        (fun c => c.1.map (fun r => r.value))) =
      [[Nat.repr (2 ^ 255 + 12345)]] ∧
    (runMain allOk BATCH_SIZE
      [valuePage (2 ^ 255 + 12345)]).totalTransferValue =
      2 ^ 255 + 12345 ∧
    parseDecimal (Nat.repr (2 ^ 255 + 12345)) = some (2 ^ 255 + 12345) := by
  obtain ⟨h1, h2⟩ := c7_value_precision (2 ^ 255 + 12345) (by norm_num)
  exact ⟨h1, h2, by decide⟩

/-- C8: a parsed chain id that is non-zero and outside `CHAIN_CONFIG`
makes the program exit with code 1 after printing the whitelist — the
`ran` branch (table setup and streaming) is never reached; any
whitelisted id proceeds into the run. -/
theorem c8_whitelist_gate (n : Int) (sinkOk : ℕ → Bool) (pages : List Page) :
    (n ≠ 0 → lookupChain n = none →
      program (some n) sinkOk pages = .exited 1 chainWhitelist) ∧
    (∀ info : ChainInfo, lookupChain n = some info →
      program (some n) sinkOk pages =
        .ran n (tableName n) (collectMain sinkOk pages)) := by
  constructor
  · intro hn hnone
    unfold program startup parseChainId
    simp [hn, hnone]
  · intro info hsome
    by_cases hn : n = 0
    · have h0 : lookupChain 0 = none := by decide
      rw [hn, h0] at hsome
      cases hsome
    · unfold program startup parseChainId
      simp [hn, hsome]

/-- Witness for C8: chain id 2 (not whitelisted) exits 1 with the
whitelist; chain id 1 (Ethereum) proceeds. -/
theorem c8_whitelist_gate_witness :
    program (some 2) allOk [] = .exited 1 chainWhitelist ∧
    program (some 1) allOk [] =
      .ran 1 (tableName 1) (collectMain allOk []) :=
  ⟨(c8_whitelist_gate 2 allOk []).1 (by decide) (by decide),
   (c8_whitelist_gate 1 allOk []).2
     ⟨"Ethereum", "http://1.hypersync.xyz"⟩ (by decide)⟩

/-- C9: an absent argument (parseInt gives NaN) or one parsing to 0 is
falsy, so `|| 130` silently selects chain 130 (Unichain) and the program
proceeds into the run — no error, no exit. -/
theorem c9_default_chain (sinkOk : ℕ → Bool) (pages : List Page) :
    parseChainId none = 130 ∧
    parseChainId (some 0) = 130 ∧
    startup none = .proceed 130 ⟨"Unichain", "http://130.hypersync.xyz"⟩ ∧
    program none sinkOk pages =
      .ran 130 "erc20_transfers_130" (collectMain sinkOk pages) ∧
    program (some 0) sinkOk pages =
      .ran 130 "erc20_transfers_130" (collectMain sinkOk pages) :=
  ⟨rfl, rfl, rfl, rfl, rfl⟩

/-- C10: a non-null decoded log is always appended to the batch — never
skipped — and every missing field falls back to its JS-falsy default:
"0x0" for from/to addresses, contract address and transaction hash, 0
for the log index, and value 0 (serialized as "0"). -/
theorem c10_missing_field_defaults (bn : ℕ) (bt : BTime) (raw : RawLog)
    (d : DecodedLog) :
    (d.indexed[0]? = none → (buildRow bn bt raw d).from_address = "0x0") ∧
    (d.indexed[1]? = none → (buildRow bn bt raw d).to_address = "0x0") ∧
    (d.body[0]? = none → (buildRow bn bt raw d).value = "0") ∧
    (raw.address = none → (buildRow bn bt raw d).contract_address = "0x0") ∧
    (raw.logIndex = none → (buildRow bn bt raw d).log_index = 0) ∧
    (raw.transactionHash = none →
      (buildRow bn bt raw d).transaction_hash = "0x0") ∧
    (∀ st : LoopState, (processLog bn bt st (raw, some d)).transferBatch =
      st.transferBatch ++ [buildRow bn bt raw d]) := by
  refine ⟨fun h => by simp [buildRow, jsOrStr, h],
         fun h => by simp [buildRow, jsOrStr, h],
         fun h => by simp [buildRow, decodedValue, jsOrNat, h]; rfl,
         fun h => by simp [buildRow, jsOrStr, h],
         fun h => by simp [buildRow, jsOrNat, h],
         fun h => by simp [buildRow, jsOrStr, h],
         fun st => by simp [processLog]⟩

/-- Witness for C10 at the fully-degenerate log (all fields missing):
the record is still appended, with every default in place. -/
theorem c10_missing_field_defaults_witness :
    (buildRow 0 BTime.fromClock ⟨none, none, none⟩ ⟨[], []⟩).from_address
      = "0x0" ∧
    (buildRow 0 BTime.fromClock ⟨none, none, none⟩ ⟨[], []⟩).to_address
      = "0x0" ∧
    (buildRow 0 BTime.fromClock ⟨none, none, none⟩ ⟨[], []⟩).value = "0" ∧
    (buildRow 0 BTime.fromClock ⟨none, none, none⟩ ⟨[], []⟩).contract_address
      = "0x0" ∧
    (buildRow 0 BTime.fromClock ⟨none, none, none⟩ ⟨[], []⟩).log_index = 0 ∧
    (buildRow 0 BTime.fromClock ⟨none, none, none⟩ ⟨[], []⟩).transaction_hash
      = "0x0" ∧
    (processLog 0 BTime.fromClock initState
        (⟨none, none, none⟩, some ⟨[], []⟩)).transferBatch =
      initState.transferBatch ++
        [buildRow 0 BTime.fromClock ⟨none, none, none⟩ ⟨[], []⟩] := by
  obtain ⟨h1, h2, h3, h4, h5, h6, h7⟩ :=
    c10_missing_field_defaults 0 BTime.fromClock ⟨none, none, none⟩ ⟨[], []⟩
  exact ⟨h1 rfl, h2 rfl, h3 rfl, h4 rfl, h5 rfl, h6 rfl, h7 initState⟩

end TokenIntel
